import Mathlib

/-!
# Marginalia — context-scoped note synchronization engine

Shallow embedding, in Lean 4, of the core of the Marginalia browser
extension: URL-to-context resolution and scope-key derivation
(`src/sidebarLogic.ts`), the per-user remote sync client
(`src/firebaseSync.ts`: key building, point read/write, legacy
migration), and the dual-tier sync orchestrator (`saveNotes` /
`loadNotes` / `initializeSync` in `src/sidebarLogic.ts`).

External collaborators are made explicit:
* the persistent local key-value store (`chrome.storage.local`) is a
  string-keyed association list,
* the remote document store (Firestore) is a string-keyed association
  list of documents, addressed by the full document path,
* transport availability is a boolean parameter (`transportUp`): every
  remote operation fails with a transport error when it is `false`,
* the wall clock is an explicit `now : Nat` (milliseconds) parameter,
* the host URL parser (`new URL(...)`) is an abstract
  `String → Option URLParts` function.

All fallible operations return `Except SyncError`; an `.error` result
models a thrown exception, in which case the caller's stores are
unchanged (no updated state is produced).
-/

set_option autoImplicit false

namespace Marginalia

/-- A note object. The four named fields are the fields of the `Note`
TypeScript interface; `extra` models any additional properties a raw
JavaScript note object may carry beyond the declared interface (used to
state which fields reach the remote store). A note with `extra = []` is
exactly a well-formed `Note` value. -/
structure Note where
  id : String
  text : String
  createdAt : Nat
  updatedAt : Nat
  extra : List (String × String)
deriving DecidableEq, Repr

/-- The object literal built in `FirebaseSync.saveNotes`
(`{ id: note.id, text: note.text, createdAt: note.createdAt,
updatedAt: note.updatedAt }`): it keeps exactly the four interface
fields and drops everything else. -/
def storedNote (n : Note) : Note :=
  { id := n.id, text := n.text, createdAt := n.createdAt,
    updatedAt := n.updatedAt, extra := [] }

/-- Structured decomposition of a URL (the `UrlContext` interface). -/
structure UrlContext where
  url : String
  domain : String
  subdomain : String
  path : String
  fullPath : String
deriving DecidableEq, Repr

/-- A value stored in the local persistent key-value store.
`chrome.storage.local` maps string keys to arbitrary JSON values; the
values this program stores or inspects are arrays of notes, booleans
(the migration flag) and other non-array junk. `Array.isArray` is true
exactly on the `.notes` constructor. -/
inductive LocalValue where
  | notes (ns : List Note)
  | flag (b : Bool)
  | str (s : String)
deriving DecidableEq, Repr

/-- JavaScript truthiness of a stored value (`[]` is truthy, `false`
and `""` are falsy). -/
def LocalValue.truthy : LocalValue → Bool
  | .notes _ => true
  | .flag b => b
  | .str s => s ≠ ""

/-- The local cache store: an association list keyed by storage key. -/
abbrev LocalStore := List (String × LocalValue)

/-- A remote (Firestore) document as this program writes and reads it:
an optional `notes` array (the field may be absent on documents not
written by this code path) and an `updatedAt` timestamp. -/
structure RemoteDoc where
  notes : Option (List Note)
  updatedAt : Nat
deriving DecidableEq, Repr

/-- The remote document store, keyed by full document path. -/
abbrev RemoteStore := List (String × RemoteDoc)

/-- Point update of an association list: overwrite the first binding of
the key, or append a fresh binding. -/
def setEntry {α : Type} (m : List (String × α)) (k : String) (v : α) :
    List (String × α) :=
  match m with
  | [] => [(k, v)]
  | (k', v') :: rest =>
    if k' = k then (k, v) :: rest else (k', v') :: setEntry rest k v

/-- Point lookup in an association list (first binding wins). -/
def lookupEntry {α : Type} (m : List (String × α)) (k : String) :
    Option α :=
  match m with
  | [] => none
  | (k', v') :: rest => if k' = k then some v' else lookupEntry rest k

/-- Errors thrown by the sync engine: payload validation failures,
the client-side write throttle, and generic transport failures of the
remote store. -/
inductive SyncError where
  | validationError (msg : String)
  | rateLimitError (msg : String)
  | transportError
deriving DecidableEq, Repr

/-! ## Character-level string helpers

JavaScript's `hostname.split('.')`, `key.split(':')`,
`parts.join('.')`, `parts.join(':')` and
`path.replace(/\//g, '~')` all act on single-character separators, so
they are embedded as structural functions on the character list of the
string. -/

/-- `String.prototype.split` with a single-character separator:
splits the character list at every occurrence of `c`.  The result is
always non-empty (splitting the empty string yields `[[]]`, as in
JavaScript where `''.split('.')` is `['']`). -/
def splitChar (c : Char) : List Char → List (List Char)
  | [] => [[]]
  | a :: rest =>
    match splitChar c rest with
    | [] => [[]]
    | g :: gs => if a = c then [] :: g :: gs else (a :: g) :: gs

/-- `Array.prototype.join` with a single-character separator. -/
def joinChar (c : Char) : List (List Char) → List Char
  | [] => []
  | [g] => g
  | g :: g' :: gs => g ++ c :: joinChar c (g' :: gs)

/-- `split` never returns the empty list of groups. -/
theorem splitChar_ne_nil (c : Char) (l : List Char) :
    splitChar c l ≠ [] := by
  cases l with
  | nil => simp [splitChar]
  | cons a rest =>
    simp only [splitChar]
    cases h : splitChar c rest with
    | nil => simp
    | cons g gs =>
      by_cases hac : a = c <;> simp [hac]

/-- `join` is a left inverse of `split`: splitting a string at a
separator and joining the groups back recovers the string. -/
theorem joinChar_splitChar (c : Char) (l : List Char) :
    joinChar c (splitChar c l) = l := by
  induction l with
  | nil => simp [splitChar, joinChar]
  | cons a rest ih =>
    simp only [splitChar]
    cases h : splitChar c rest with
    | nil => exact absurd h (splitChar_ne_nil c rest)
    | cons g gs =>
      rw [h] at ih
      by_cases hac : a = c
      · subst hac
        simp only [if_pos rfl]
        cases gs with
        | nil => simpa [joinChar] using congrArg (a :: ·) ih
        | cons g' gs' => simpa [joinChar] using congrArg (a :: ·) ih
      · simp only [if_neg hac]
        cases gs with
        | nil => simpa [joinChar] using congrArg (a :: ·) ih
        | cons g' gs' => simpa [joinChar] using congrArg (a :: ·) ih

/-- Joining a tail segment of the groups produces a suffix of joining
all the groups. -/
theorem joinChar_drop_isSuffix (c : Char) (gs : List (List Char))
    (k : Nat) : ∃ p, joinChar c gs = p ++ joinChar c (gs.drop k) := by
  induction gs generalizing k with
  | nil => exact ⟨[], by simp⟩
  | cons g gs' ih =>
    cases k with
    | zero => exact ⟨[], by simp⟩
    | succ k' =>
      obtain ⟨p, hp⟩ := ih k'
      cases gs' with
      | nil =>
        cases k' <;> exact ⟨g, by simp [joinChar]⟩
      | cons g' gs'' =>
        exact ⟨g ++ c :: p, by simp [joinChar, hp]⟩

/-- The result of the host's URL constructor (`new URL(url)`): the
components of a successfully parsed absolute URL that this program
reads.  The constructor itself is an external collaborator, passed in
as an abstract `String → Option URLParts` function (`none` models the
`TypeError` thrown on an unparseable input). -/
structure URLParts where
  hostname : String
  pathname : String
  search : String
  hash : String
deriving DecidableEq, Repr

/-- `parseUrlContext` from `src/sidebarLogic.ts`: wraps the host URL
parser; on success, splits the hostname on `'.'`, takes the last two
labels as the registrable domain (or the whole hostname when there are
fewer than two labels), and assembles the `UrlContext` record.  An
unparseable URL yields `none` (the `catch` branch returning `null`). -/
def parseUrlContext (tryParseURL : String → Option URLParts)
    (url : String) : Option UrlContext :=
  match tryParseURL url with
  | none => none
  | some u =>
    let parts := splitChar '.' u.hostname.toList
    let domain :=
      if 2 ≤ parts.length then
        String.mk (joinChar '.' (parts.drop (parts.length - 2)))
      else u.hostname
    some { url := url, domain := domain, subdomain := u.hostname,
           path := u.pathname,
           fullPath := u.pathname ++ u.search ++ u.hash }

/-- `getStorageKey` from `src/sidebarLogic.ts`.  `NoteScope` is the
TypeScript string-literal union `'browser' | 'domain' | 'subdomain' |
'page'`; the scope argument is embedded as a `String` so that the
`default` arm of the `switch` (reachable only through a type-unsafe
call) is part of the model. -/
def getStorageKey (scope : String) (context : UrlContext) : String :=
  match scope with
  | "browser" => "notes:browser"
  | "domain" => "notes:domain:" ++ context.domain
  | "subdomain" => "notes:subdomain:" ++ context.subdomain
  | "page" => "notes:page:" ++ context.subdomain ++ context.path
  | _ => "notes:browser"

/-- `path.replace(/\//g, '~')` on the character list: every `'/'`
becomes `'~'`, all other characters are untouched. -/
def escapeChars (l : List Char) : List Char :=
  l.map fun ch => if ch = '/' then '~' else ch

/-- The `escapePath` helper of `src/firebaseSync.ts`. -/
def escapePath (p : String) : String :=
  String.mk (escapeChars p.toList)

/-- The per-user remote sync client (`FirebaseSync` class of
`src/firebaseSync.ts`): the authenticated user id it was constructed
with, and the in-memory map from remote context key to the timestamp
of the last successful write to that key (the client-side throttle
state; process-lifetime only). -/
structure FirebaseSync where
  userId : String
  lastWriteTime : List (String × Nat)
deriving DecidableEq, Repr

/-- `FirebaseSync.buildFirestoreKey`: the remote-dialect key for a
`(scope, context)` pair, escaping path separators; unrecognized scope
values fall back to the browser key. -/
def FirebaseSync.buildFirestoreKey (scope : String)
    (context : UrlContext) : String :=
  match scope with
  | "browser" => "browser"
  | "domain" => "domain_" ++ context.domain
  | "subdomain" => "subdomain_" ++ context.subdomain
  | "page" => "page_" ++ context.subdomain ++ escapePath context.path
  | _ => "browser"

/-- The full Firestore document path
`users/${userId}/notes/${contextKey}` used by every remote operation
of the client. -/
def FirebaseSync.docPath (c : FirebaseSync) (contextKey : String) :
    String :=
  "users/" ++ c.userId ++ "/notes/" ++ contextKey

/-- The throttle check of the remote client: true when the elapsed
time since the last successful write to this exact key is under
1000 ms.  (With no recorded write the check passes.  `Nat`
subtraction truncates at zero, which agrees with the JavaScript
`now - last < 1000` comparison also when the clock reads earlier than
the recorded write.) -/
def throttled (lastWriteTime : List (String × Nat)) (key : String)
    (now : Nat) : Bool :=
  match lookupEntry lastWriteTime key with
  | some t => now - t < 1000
  | none => false

/-- `FirebaseSync.saveNotes`.

Modelled from the spec: the current `src/firebaseSync.ts` is not in
the source tree (only an earlier revision of the file, its unit tests
in `tests/unit/firebaseSync.test.ts`, `docs/SECURITY.md` and its
callers are), and the earlier revision predates the validate →
throttle-check → write gate that the spec (§4.4), the unit tests and
`docs/SECURITY.md` §4 all describe.  The gate is therefore modelled
from the spec's words: fail with `ValidationError("maximum 100
notes")` when `notes.length > 100`, fail with `ValidationError("note
exceeds maximum size")` when any note's text exceeds 50,000 units,
fail with `RateLimitError("please wait before saving again")` when
less than 1000 ms elapsed since the last successful write to the same
remote key, all before any network call.  The write itself (the
four-field note projection and the document overwrite) and the key
construction follow the revision of `firebaseSync.ts` present in the
tree; the timestamp for throttling is recorded only on a successful
write.  An `.error` result models a thrown exception: no store is
changed. -/
def FirebaseSync.saveNotes (c : FirebaseSync) (remote : RemoteStore)
    (now : Nat) (transportUp : Bool) (scope : String)
    (context : UrlContext) (notes : List Note) :
    Except SyncError (FirebaseSync × RemoteStore) :=
  if 100 < notes.length then
    .error (.validationError "maximum 100 notes")
  else if notes.any fun n => 50000 < n.text.length then
    .error (.validationError "note exceeds maximum size")
  else if throttled c.lastWriteTime
      (FirebaseSync.buildFirestoreKey scope context) now then
    .error (.rateLimitError "please wait before saving again")
  else if transportUp then
    .ok ({ c with
           lastWriteTime := setEntry c.lastWriteTime
             (FirebaseSync.buildFirestoreKey scope context) now },
         setEntry remote
           (c.docPath (FirebaseSync.buildFirestoreKey scope context))
           { notes := some (notes.map storedNote), updatedAt := now })
  else
    .error .transportError

/-- `FirebaseSync.loadNotes`: point read of the document for the
`(scope, context)` pair; `[]` when the document does not exist
(`!snapshot.exists()`) or has no `notes` field (`data?.notes || []`);
a transport failure is thrown. -/
def FirebaseSync.loadNotes (c : FirebaseSync) (remote : RemoteStore)
    (transportUp : Bool) (scope : String) (context : UrlContext) :
    Except SyncError (List Note) :=
  if transportUp then
    match lookupEntry remote
        (c.docPath (FirebaseSync.buildFirestoreKey scope context)) with
    | none => .ok []
    | some d => .ok (d.notes.getD [])
  else
    .error .transportError

/-- The key-parsing step of `FirebaseSync.migrateLocalNotes`: given a
local storage key (already known to hold an array), produce the remote
context key, or `none` for a key not matching the recognized shapes
(`continue` in the loop).  Follows the source: keys not starting with
`notes:` are skipped; `notes:browser` (with any trailing segments)
maps to `browser`; `notes:domain:<d>` to `domain_<d>`;
`notes:subdomain:<s>` to `subdomain_<s>`; `notes:page:<rest>` to
`page_` followed by `<rest>` (the remaining `:`-separated segments
rejoined) with `/` escaped to `~`; anything else is skipped. -/
def migrateKey (key : String) : Option String :=
  let ks := key.toList
  if ("notes:".toList).isPrefixOf ks then
    let parts := splitChar ':' ks
    if parts.length < 2 then none
    else
      let scopeType := parts.getD 1 []
      if scopeType = "browser".toList then
        some "browser"
      else if scopeType = "domain".toList ∧ 3 ≤ parts.length then
        some ("domain_" ++ String.mk (parts.getD 2 []))
      else if scopeType = "subdomain".toList ∧ 3 ≤ parts.length then
        some ("subdomain_" ++ String.mk (parts.getD 2 []))
      else if scopeType = "page".toList ∧ 3 ≤ parts.length then
        some ("page_" ++
          String.mk (escapeChars (joinChar ':' (parts.drop 2))))
      else none
  else none

/-- The sweep loop of `FirebaseSync.migrateLocalNotes` over the
entries of the local store (`Object.entries(allData)`): each entry
whose value is an array and whose key parses writes the raw note
collection to the corresponding remote document (bypassing the
validate/throttle gate); other entries are skipped.  A transport
failure on any attempted write is thrown. -/
def migrateEntries (c : FirebaseSync) (now : Nat) (transportUp : Bool)
    (remote : RemoteStore) :
    List (String × LocalValue) → Except SyncError RemoteStore
  | [] => .ok remote
  | (k, v) :: rest =>
    match v with
    | .notes ns =>
      match migrateKey k with
      | some ck =>
        if transportUp then
          migrateEntries c now transportUp
            (setEntry remote (c.docPath ck)
              { notes := some ns, updatedAt := now }) rest
        else
          .error .transportError
      | none => migrateEntries c now transportUp remote rest
    | _ => migrateEntries c now transportUp remote rest

/-- `FirebaseSync.migrateLocalNotes`: reads every local entry, sweeps
them through `migrateEntries`, and afterwards (only when the sweep did
not throw) sets the `_migrated_to_firebase` completion flag in the
local store.  Returns the updated remote and local stores. -/
def FirebaseSync.migrateLocalNotes (c : FirebaseSync) (now : Nat)
    (transportUp : Bool) (localStore : LocalStore)
    (remote : RemoteStore) :
    Except SyncError (RemoteStore × LocalStore) :=
  match migrateEntries c now transportUp remote localStore with
  | .ok remote' =>
    .ok (remote', setEntry localStore "_migrated_to_firebase" (.flag true))
  | .error e => .error e

/-! ## Sync orchestrator (`src/sidebarLogic.ts`)

The module-level mutable `syncService` reference together with the two
collaborator stores form the explicit system state threaded through
the orchestrator's operations. -/

/-- The orchestrator's state: the lazily-created remote sync client
(`let syncService: FirebaseSync | null = null`), the local cache store
and the remote document store. -/
structure SysState where
  client : Option FirebaseSync
  localStore : LocalStore
  remoteStore : RemoteStore
deriving DecidableEq, Repr

/-- The gate of the one-time migration
(`if (!migrationStatus._migrated_to_firebase)`): JavaScript truthiness
of the persisted `_migrated_to_firebase` value, with an absent key
read as `undefined` (falsy). -/
def migrationFlagSet (l : LocalStore) : Bool :=
  match lookupEntry l "_migrated_to_firebase" with
  | some v => v.truthy
  | none => false

/-- `initializeSync` from `src/sidebarLogic.ts`: resolve the current
user id (`auth`, the synchronous identity accessor); without an
identity, leave the client unset and return.  With an identity,
construct a fresh client, check the persisted `_migrated_to_firebase`
flag (JavaScript truthiness), and when it is not set run the one-time
legacy migration.  The `await syncService.migrateLocalNotes()` call is
not guarded, so a migration failure propagates to the caller. -/
def initializeSync (auth : Option String) (now : Nat)
    (transportUp : Bool) (st : SysState) : Except SyncError SysState :=
  match auth with
  | none => .ok st
  | some userId =>
    if migrationFlagSet st.localStore then
      .ok { st with
            client := some { userId := userId, lastWriteTime := [] } }
    else
      match FirebaseSync.migrateLocalNotes
          { userId := userId, lastWriteTime := [] } now transportUp
          st.localStore st.remoteStore with
      | .ok (remote', local') =>
        .ok { client := some { userId := userId, lastWriteTime := [] },
              localStore := local', remoteStore := remote' }
      | .error e => .error e

/-- The lazy-initialization step shared by the orchestrator's
`saveNotes` and `loadNotes` (`if (!syncService) await
initializeSync()`). -/
def ensureSync (auth : Option String) (now : Nat) (transportUp : Bool)
    (st : SysState) : Except SyncError SysState :=
  if st.client.isNone then initializeSync auth now transportUp st
  else .ok st

/-- The bare local read `result[key] || []` used by the orchestrator:
the stored array under the key, or `[]` when the key is absent (or
holds a falsy non-array value; a typed reading of the untyped `||`). -/
def localNotes (l : LocalStore) (key : String) : List Note :=
  match lookupEntry l key with
  | some (.notes ns) => ns
  | _ => []

/-- The orchestrator's `saveNotes`: lazily initialize; if a client is
available, attempt the remote write, swallowing any error
(`try ... catch { console.error(...) }`); then always write the given
notes to the local cache store under `getStorageKey(scope, context)`. -/
def SidebarLogic.saveNotes (auth : Option String) (now : Nat)
    (transportUp : Bool) (scope : String) (context : UrlContext)
    (notes : List Note) (st : SysState) : Except SyncError SysState :=
  match ensureSync auth now transportUp st with
  | .error e => .error e
  | .ok st₁ =>
    let st₂ :=
      match st₁.client with
      | some c =>
        match FirebaseSync.saveNotes c st₁.remoteStore now transportUp
            scope context notes with
        | .ok (c', remote') =>
          { st₁ with client := some c', remoteStore := remote' }
        | .error _ => st₁
      | none => st₁
    .ok { st₂ with
          localStore := setEntry st₂.localStore
            (getStorageKey scope context) (.notes notes) }

/-- The orchestrator's `loadNotes`: lazily initialize; if a client is
available, attempt the remote read — on success refresh the local
cache with the result and return it, on failure fall through to the
local read (`catch { console.error(...) }`); without a client, read
the local cache directly. -/
def SidebarLogic.loadNotes (auth : Option String) (now : Nat)
    (transportUp : Bool) (scope : String) (context : UrlContext)
    (st : SysState) : Except SyncError (List Note × SysState) :=
  match ensureSync auth now transportUp st with
  | .error e => .error e
  | .ok st₁ =>
    match st₁.client with
    | some c =>
      match FirebaseSync.loadNotes c st₁.remoteStore transportUp
          scope context with
      | .ok ns =>
        .ok (ns, { st₁ with
                   localStore := setEntry st₁.localStore
                     (getStorageKey scope context) (.notes ns) })
      | .error _ =>
        .ok (localNotes st₁.localStore (getStorageKey scope context),
             st₁)
    | none =>
      .ok (localNotes st₁.localStore (getStorageKey scope context),
           st₁)

/-! ## Association-list lemmas -/

theorem lookupEntry_setEntry_self {α : Type} (m : List (String × α))
    (k : String) (v : α) : lookupEntry (setEntry m k v) k = some v := by
  induction m with
  | nil => simp [setEntry, lookupEntry]
  | cons e rest ih =>
    obtain ⟨k₀, v₀⟩ := e
    by_cases h : k₀ = k
    · subst h
      simp [setEntry, lookupEntry]
    · simp [setEntry, lookupEntry, h, ih]

theorem lookupEntry_setEntry_ne {α : Type} (m : List (String × α))
    (k k' : String) (v : α) (h : k' ≠ k) :
    lookupEntry (setEntry m k v) k' = lookupEntry m k' := by
  have hk : ¬k = k' := fun h' => h h'.symm
  induction m with
  | nil => simp [setEntry, lookupEntry, hk]
  | cons e rest ih =>
    obtain ⟨k₀, v₀⟩ := e
    by_cases h₀ : k₀ = k
    · subst h₀
      simp [setEntry, lookupEntry, hk]
    · simp [setEntry, lookupEntry, h₀, ih]

/-! ## Claims -/

/-- C1: For every call to the Remote Sync Client's
`saveNotes(scope, context, notes)`: if `notes` has more than 100
elements it fails with `ValidationError("maximum 100 notes")`, and if
any note's text exceeds 50,000 units it fails with
`ValidationError("note exceeds maximum size")`, in both cases before
any remote write is attempted (the error result carries no updated
store, and fires for any transport state); a collection of at most 100
notes all of whose texts are within 50,000 units (in particular,
exactly 100 notes, or one note of exactly 50,000 units) is accepted
and written when the throttle window is clear. -/
theorem saveNotes_validation_gate (c : FirebaseSync)
    (remote : RemoteStore) (now : Nat) (transportUp : Bool)
    (scope : String) (context : UrlContext) (notes : List Note) :
    (100 < notes.length →
      FirebaseSync.saveNotes c remote now transportUp scope context
        notes = .error (.validationError "maximum 100 notes")) ∧
    (notes.length ≤ 100 → (∃ n ∈ notes, 50000 < n.text.length) →
      FirebaseSync.saveNotes c remote now transportUp scope context
        notes = .error (.validationError "note exceeds maximum size")) ∧
    (notes.length ≤ 100 → (∀ n ∈ notes, n.text.length ≤ 50000) →
      throttled c.lastWriteTime
        (FirebaseSync.buildFirestoreKey scope context) now = false →
      FirebaseSync.saveNotes c remote now true scope context notes =
        .ok ({ c with
               lastWriteTime := setEntry c.lastWriteTime
                 (FirebaseSync.buildFirestoreKey scope context) now },
             setEntry remote
               (c.docPath (FirebaseSync.buildFirestoreKey scope context))
               { notes := some (notes.map storedNote),
                 updatedAt := now })) := by
  refine ⟨fun hlen => ?_, fun hlen hex => ?_, fun hlen hall hthr => ?_⟩
  · simp only [FirebaseSync.saveNotes]
    rw [if_pos hlen]
  · have hany : (notes.any fun n => 50000 < n.text.length) = true := by
      obtain ⟨n, hn, hlt⟩ := hex
      exact List.any_eq_true.mpr ⟨n, hn, by simpa using hlt⟩
    simp only [FirebaseSync.saveNotes]
    rw [if_neg (Nat.not_lt.mpr hlen), if_pos hany]
  · have hany : (notes.any fun n => 50000 < n.text.length) = false := by
      rw [List.any_eq_false]
      intro n hn
      simpa using Nat.not_lt.mpr (hall n hn)
    simp [FirebaseSync.saveNotes, Nat.not_lt.mpr hlen, hany, hthr]

/-- The length of a string built from an explicit character list (used
to reason about the 50,000-unit texts of the boundary witnesses
without kernel-reducing 50,000-element lists). -/
theorem length_mk_chars (l : List Char) :
    (String.mk l).length = l.length := rfl

/-- Witness for C1: a fresh client with user id `u1`; 101 short notes
are rejected with the count error, a single note of 50,001 characters
is rejected with the size error, and 100 notes one of which has
exactly 50,000 characters are accepted and written. -/
theorem saveNotes_validation_gate_witness :
    (FirebaseSync.saveNotes ⟨"u1", []⟩ [] 5 true "browser"
        ⟨"https://a.b/", "a.b", "a.b", "/", "/"⟩
        (List.replicate 101 ⟨"1", "a", 0, 0, []⟩) =
      .error (.validationError "maximum 100 notes")) ∧
    (FirebaseSync.saveNotes ⟨"u1", []⟩ [] 5 true "browser"
        ⟨"https://a.b/", "a.b", "a.b", "/", "/"⟩
        [⟨"1", String.mk (List.replicate 50001 'a'), 0, 0, []⟩] =
      .error (.validationError "note exceeds maximum size")) ∧
    (FirebaseSync.saveNotes ⟨"u1", []⟩ [] 5 true "browser"
        ⟨"https://a.b/", "a.b", "a.b", "/", "/"⟩
        (⟨"0", String.mk (List.replicate 50000 'a'), 0, 0, []⟩ ::
          List.replicate 99 ⟨"1", "a", 0, 0, []⟩) =
      .ok ({ userId := "u1",
             lastWriteTime := setEntry [] (FirebaseSync.buildFirestoreKey
               "browser" ⟨"https://a.b/", "a.b", "a.b", "/", "/"⟩) 5 },
           setEntry [] (FirebaseSync.docPath ⟨"u1", []⟩
               (FirebaseSync.buildFirestoreKey "browser"
                 ⟨"https://a.b/", "a.b", "a.b", "/", "/"⟩))
             { notes := some ((⟨"0", String.mk (List.replicate 50000 'a'),
                   0, 0, []⟩ ::
                 List.replicate 99 ⟨"1", "a", 0, 0, []⟩).map storedNote),
               updatedAt := 5 })) := by
  refine ⟨?_, ?_, ?_⟩
  · exact (saveNotes_validation_gate ⟨"u1", []⟩ [] 5 true "browser"
      ⟨"https://a.b/", "a.b", "a.b", "/", "/"⟩
      (List.replicate 101 ⟨"1", "a", 0, 0, []⟩)).1
      (by rw [List.length_replicate]; omega)
  · exact (saveNotes_validation_gate ⟨"u1", []⟩ [] 5 true "browser"
      ⟨"https://a.b/", "a.b", "a.b", "/", "/"⟩
      [⟨"1", String.mk (List.replicate 50001 'a'), 0, 0, []⟩]).2.1
      (by rw [List.length_singleton]; omega)
      ⟨⟨"1", String.mk (List.replicate 50001 'a'), 0, 0, []⟩,
        List.mem_singleton.mpr rfl,
        by
          show 50000 < (String.mk (List.replicate 50001 'a')).length
          rw [length_mk_chars, List.length_replicate]
          omega⟩
  · exact (saveNotes_validation_gate ⟨"u1", []⟩ [] 5 true "browser"
      ⟨"https://a.b/", "a.b", "a.b", "/", "/"⟩
      (⟨"0", String.mk (List.replicate 50000 'a'), 0, 0, []⟩ ::
        List.replicate 99 ⟨"1", "a", 0, 0, []⟩)).2.2
      (by rw [List.length_cons, List.length_replicate])
      (by
        intro n hn
        rcases List.mem_cons.mp hn with h | h
        · subst h
          show (String.mk (List.replicate 50000 'a')).length ≤ 50000
          rw [length_mk_chars, List.length_replicate]
        · rcases List.eq_of_mem_replicate h with rfl
          decide)
      (by rfl)

/-- C2: after a successful write to a key, a second `saveNotes` call
for the same `(scope, context)` within 1000 ms fails with
`RateLimitError("please wait before saving again")` (the error result
carries no updated store, so no remote write happens), while a second
call at least 1000 ms later succeeds as well. -/
theorem saveNotes_throttle_window (c : FirebaseSync)
    (remote : RemoteStore) (now₁ now₂ : Nat) (scope : String)
    (context : UrlContext) (notes : List Note) (c₁ : FirebaseSync)
    (r₁ : RemoteStore)
    (h1 : FirebaseSync.saveNotes c remote now₁ true scope context
      notes = .ok (c₁, r₁)) :
    (now₂ - now₁ < 1000 →
      FirebaseSync.saveNotes c₁ r₁ now₂ true scope context notes =
        .error (.rateLimitError "please wait before saving again")) ∧
    (1000 ≤ now₂ - now₁ →
      ∃ c₂ r₂, FirebaseSync.saveNotes c₁ r₁ now₂ true scope context
        notes = .ok (c₂, r₂)) := by
  simp only [FirebaseSync.saveNotes] at h1
  by_cases hlen : 100 < notes.length
  · rw [if_pos hlen] at h1
    exact absurd h1 (by simp)
  rw [if_neg hlen] at h1
  by_cases hany : (notes.any fun n => 50000 < n.text.length) = true
  · rw [if_pos hany] at h1
    exact absurd h1 (by simp)
  rw [if_neg hany] at h1
  by_cases hthr : throttled c.lastWriteTime
      (FirebaseSync.buildFirestoreKey scope context) now₁ = true
  · rw [if_pos hthr] at h1
    exact absurd h1 (by simp)
  rw [if_neg hthr] at h1
  simp only [if_true] at h1
  rw [Except.ok.injEq, Prod.mk.injEq] at h1
  obtain ⟨hc, hr⟩ := h1
  subst hc
  subst hr
  have hthr₂ : throttled
      (setEntry c.lastWriteTime
        (FirebaseSync.buildFirestoreKey scope context) now₁)
      (FirebaseSync.buildFirestoreKey scope context) now₂ =
      decide (now₂ - now₁ < 1000) := by
    simp [throttled, lookupEntry_setEntry_self]
  constructor
  · intro hlt
    simp only [FirebaseSync.saveNotes]
    rw [if_neg hlen, if_neg hany,
      if_pos (show throttled _ _ _ = true by rw [hthr₂]; simpa using hlt)]
  · intro hge
    simp only [FirebaseSync.saveNotes]
    rw [if_neg hlen, if_neg hany,
      if_neg (show ¬throttled _ _ _ = true by
        rw [hthr₂]
        simpa using Nat.not_lt.mpr hge)]
    simp only [if_true]
    exact ⟨_, _, rfl⟩

/-- Witness for C2: a first write at time 0 succeeds; a second write
to the same key at time 500 is rate-limited, and one at time 1000
succeeds. -/
theorem saveNotes_throttle_window_witness :
    (FirebaseSync.saveNotes ⟨"u1", []⟩ [] 0 true "domain"
        ⟨"https://a.b/", "a.b", "a.b", "/", "/"⟩
        [⟨"1", "hi", 0, 0, []⟩] =
      .ok (⟨"u1", [("domain_a.b", 0)]⟩,
           [("users/u1/notes/domain_a.b",
             { notes := some [⟨"1", "hi", 0, 0, []⟩],
               updatedAt := 0 })])) ∧
    (FirebaseSync.saveNotes ⟨"u1", [("domain_a.b", 0)]⟩
        [("users/u1/notes/domain_a.b",
          { notes := some [⟨"1", "hi", 0, 0, []⟩], updatedAt := 0 })]
        500 true "domain" ⟨"https://a.b/", "a.b", "a.b", "/", "/"⟩
        [⟨"1", "hi", 0, 0, []⟩] =
      .error (.rateLimitError "please wait before saving again")) ∧
    (∃ c₂ r₂, FirebaseSync.saveNotes ⟨"u1", [("domain_a.b", 0)]⟩
        [("users/u1/notes/domain_a.b",
          { notes := some [⟨"1", "hi", 0, 0, []⟩], updatedAt := 0 })]
        1000 true "domain" ⟨"https://a.b/", "a.b", "a.b", "/", "/"⟩
        [⟨"1", "hi", 0, 0, []⟩] = .ok (c₂, r₂)) := by
  have hfirst : FirebaseSync.saveNotes ⟨"u1", []⟩ [] 0 true "domain"
      ⟨"https://a.b/", "a.b", "a.b", "/", "/"⟩
      [⟨"1", "hi", 0, 0, []⟩] =
      .ok (⟨"u1", [("domain_a.b", 0)]⟩,
           [("users/u1/notes/domain_a.b",
             { notes := some [⟨"1", "hi", 0, 0, []⟩],
               updatedAt := 0 })]) := by rfl
  refine ⟨hfirst, ?_, ?_⟩
  · exact (saveNotes_throttle_window ⟨"u1", []⟩ [] 0 500 "domain"
      ⟨"https://a.b/", "a.b", "a.b", "/", "/"⟩ [⟨"1", "hi", 0, 0, []⟩]
      _ _ hfirst).1 (by decide)
  · exact (saveNotes_throttle_window ⟨"u1", []⟩ [] 0 1000 "domain"
      ⟨"https://a.b/", "a.b", "a.b", "/", "/"⟩ [⟨"1", "hi", 0, 0, []⟩]
      _ _ hfirst).2 (by decide)

/-- C10: the remote client's `saveNotes` stores for each note exactly
the four fields `id`, `text`, `createdAt`, `updatedAt`: two input
lists that agree elementwise on these four fields produce identical
results (same written document, same throttle state, same errors), so
extra fields on input note objects never reach the remote store. -/
theorem saveNotes_projects_four_fields (c : FirebaseSync)
    (remote : RemoteStore) (now : Nat) (transportUp : Bool)
    (scope : String) (context : UrlContext) (N₁ N₂ : List Note)
    (h : N₁.map (fun n => (n.id, n.text, n.createdAt, n.updatedAt)) =
         N₂.map (fun n => (n.id, n.text, n.createdAt, n.updatedAt))) :
    FirebaseSync.saveNotes c remote now transportUp scope context N₁ =
      FirebaseSync.saveNotes c remote now transportUp scope context
        N₂ := by
  have key : ∀ (M₁ M₂ : List Note),
      M₁.map (fun n => (n.id, n.text, n.createdAt, n.updatedAt)) =
        M₂.map (fun n => (n.id, n.text, n.createdAt, n.updatedAt)) →
      M₁.length = M₂.length ∧
      (M₁.any fun n => 50000 < n.text.length) =
        (M₂.any fun n => 50000 < n.text.length) ∧
      M₁.map storedNote = M₂.map storedNote := by
    intro M₁
    induction M₁ with
    | nil =>
      intro M₂ hm
      cases M₂ with
      | nil => simp
      | cons b bs => simp at hm
    | cons a as ih =>
      intro M₂ hm
      cases M₂ with
      | nil => simp at hm
      | cons b bs =>
        simp only [List.map_cons, List.cons.injEq, Prod.mk.injEq] at hm
        obtain ⟨⟨hid, htext, hca, hua⟩, hrest⟩ := hm
        obtain ⟨hlen, hany, hmap⟩ := ih bs hrest
        refine ⟨by simp [hlen], ?_, ?_⟩
        · simp [List.any_cons, htext, hany]
        · simp [List.map_cons, hmap, storedNote, hid, htext, hca, hua]
  obtain ⟨hlen, hany, hmap⟩ := key N₁ N₂ h
  simp only [FirebaseSync.saveNotes, hlen, hany, hmap]

/-- Witness for C10: a note carrying an extra `color` field and its
four-field cleanup are saved identically. -/
theorem saveNotes_projects_four_fields_witness :
    ([(⟨"1", "hi", 2, 3, [("color", "red")]⟩ : Note)].map
        (fun n => (n.id, n.text, n.createdAt, n.updatedAt)) =
      [(⟨"1", "hi", 2, 3, []⟩ : Note)].map
        (fun n => (n.id, n.text, n.createdAt, n.updatedAt))) ∧
    FirebaseSync.saveNotes ⟨"u1", []⟩ [] 0 true "browser"
        ⟨"https://a.b/", "a.b", "a.b", "/", "/"⟩
        [⟨"1", "hi", 2, 3, [("color", "red")]⟩] =
      FirebaseSync.saveNotes ⟨"u1", []⟩ [] 0 true "browser"
        ⟨"https://a.b/", "a.b", "a.b", "/", "/"⟩
        [⟨"1", "hi", 2, 3, []⟩] :=
  ⟨rfl, saveNotes_projects_four_fields ⟨"u1", []⟩ [] 0 true "browser"
    ⟨"https://a.b/", "a.b", "a.b", "/", "/"⟩
    [⟨"1", "hi", 2, 3, [("color", "red")]⟩]
    [⟨"1", "hi", 2, 3, []⟩] rfl⟩

/-- Inversion of a successful remote save: the resulting client state
records the write timestamp for the key, and the resulting store holds
the projected notes under the full document path. -/
theorem saveNotes_ok_inv (c : FirebaseSync) (remote : RemoteStore)
    (now : Nat) (scope : String) (context : UrlContext)
    (notes : List Note) (c₁ : FirebaseSync) (r₁ : RemoteStore)
    (h : FirebaseSync.saveNotes c remote now true scope context notes =
      .ok (c₁, r₁)) :
    c₁ = { c with
           lastWriteTime := setEntry c.lastWriteTime
             (FirebaseSync.buildFirestoreKey scope context) now } ∧
    r₁ = setEntry remote
      (c.docPath (FirebaseSync.buildFirestoreKey scope context))
      { notes := some (notes.map storedNote), updatedAt := now } := by
  simp only [FirebaseSync.saveNotes] at h
  by_cases hlen : 100 < notes.length
  · rw [if_pos hlen] at h
    exact absurd h (by simp)
  rw [if_neg hlen] at h
  by_cases hany : (notes.any fun n => 50000 < n.text.length) = true
  · rw [if_pos hany] at h
    exact absurd h (by simp)
  rw [if_neg hany] at h
  by_cases hthr : throttled c.lastWriteTime
      (FirebaseSync.buildFirestoreKey scope context) now = true
  · rw [if_pos hthr] at h
    exact absurd h (by simp)
  rw [if_neg hthr] at h
  simp only [if_true] at h
  rw [Except.ok.injEq, Prod.mk.injEq] at h
  exact ⟨h.1.symm, h.2.symm⟩

/-- The four-field projection is the identity on well-formed notes
(no extra fields). -/
theorem map_storedNote_of_extra_nil (ns : List Note)
    (hex : ∀ n ∈ ns, n.extra = []) : ns.map storedNote = ns := by
  induction ns with
  | nil => rfl
  | cons a as ih =>
    have ha : storedNote a = a := by
      have := hex a (List.mem_cons_self a as)
      cases a
      simp_all [storedNote]
    have tail := ih fun n hn => hex n (List.mem_cons_of_mem a hn)
    simp [ha, tail]

/-- C8: a successful remote `saveNotes(scope, ctx, N)` (remote
reachable, no throttle collision — i.e. the save returned
successfully) immediately followed by `loadNotes(scope, ctx)` returns
a collection equal to `N`, for well-formed notes `N`; and `loadNotes`
returns `[]` whenever the document for the key does not exist or
exists without a `notes` field. -/
theorem saveNotes_loadNotes_roundtrip (c : FirebaseSync)
    (remote : RemoteStore) (now : Nat) (scope : String)
    (context : UrlContext) (notes : List Note) (c₁ : FirebaseSync)
    (r₁ : RemoteStore) (hex : ∀ n ∈ notes, n.extra = [])
    (h : FirebaseSync.saveNotes c remote now true scope context notes =
      .ok (c₁, r₁)) :
    FirebaseSync.loadNotes c₁ r₁ true scope context = .ok notes ∧
    (∀ (c' : FirebaseSync) (r' : RemoteStore),
      lookupEntry r'
        (c'.docPath (FirebaseSync.buildFirestoreKey scope context)) =
        none →
      FirebaseSync.loadNotes c' r' true scope context = .ok []) ∧
    (∀ (c' : FirebaseSync) (r' : RemoteStore) (u : Nat),
      lookupEntry r'
        (c'.docPath (FirebaseSync.buildFirestoreKey scope context)) =
        some { notes := none, updatedAt := u } →
      FirebaseSync.loadNotes c' r' true scope context = .ok []) := by
  obtain ⟨hc, hr⟩ := saveNotes_ok_inv c remote now scope context notes
    c₁ r₁ h
  subst hc
  subst hr
  refine ⟨?_, ?_, ?_⟩
  · simp only [FirebaseSync.loadNotes, if_true]
    have hdoc : FirebaseSync.docPath
        { c with lastWriteTime := (setEntry c.lastWriteTime (FirebaseSync.buildFirestoreKey scope context) now) }
        (FirebaseSync.buildFirestoreKey scope context) =
        c.docPath (FirebaseSync.buildFirestoreKey scope context) := rfl
    rw [hdoc, lookupEntry_setEntry_self]
    simp [map_storedNote_of_extra_nil notes hex]
  · intro c' r' hnone
    simp [FirebaseSync.loadNotes, hnone]
  · intro c' r' u hsome
    simp [FirebaseSync.loadNotes, hsome]

/-- Witness for C8: saving one well-formed note and reading it back
returns exactly that note; reading an absent document, or a document
with no notes field, returns `[]`. -/
theorem saveNotes_loadNotes_roundtrip_witness :
    (FirebaseSync.loadNotes ⟨"u1", [("browser", 7)]⟩
        [("users/u1/notes/browser",
          { notes := some [⟨"1", "hi", 0, 0, []⟩], updatedAt := 7 })]
        true "browser" ⟨"https://a.b/", "a.b", "a.b", "/", "/"⟩ =
      .ok [⟨"1", "hi", 0, 0, []⟩]) ∧
    (FirebaseSync.loadNotes ⟨"u1", []⟩ [] true "browser"
        ⟨"https://a.b/", "a.b", "a.b", "/", "/"⟩ = .ok []) ∧
    (FirebaseSync.loadNotes ⟨"u2", []⟩
        [("users/u2/notes/browser", { notes := none, updatedAt := 3 })]
        true "browser" ⟨"https://a.b/", "a.b", "a.b", "/", "/"⟩ =
      .ok []) := by
  have h := saveNotes_loadNotes_roundtrip ⟨"u1", []⟩ [] 7 "browser"
    ⟨"https://a.b/", "a.b", "a.b", "/", "/"⟩ [⟨"1", "hi", 0, 0, []⟩]
    ⟨"u1", [("browser", 7)]⟩
    [("users/u1/notes/browser",
      { notes := some [⟨"1", "hi", 0, 0, []⟩], updatedAt := 7 })]
    (by intro n hn; rcases List.mem_singleton.mp hn with rfl; rfl)
    (by rfl)
  exact ⟨h.1, h.2.1 ⟨"u1", []⟩ [] (by rfl),
    h.2.2 ⟨"u2", []⟩
      [("users/u2/notes/browser", { notes := none, updatedAt := 3 })] 3
      (by rfl)⟩

/-- Inversion of a successful migration: the sweep succeeded on the
remote store, and the only local-store change is setting the
completion flag. -/
theorem migrateLocalNotes_ok_inv (c : FirebaseSync) (now : Nat)
    (transportUp : Bool) (l : LocalStore) (r : RemoteStore)
    (res : RemoteStore × LocalStore)
    (h : FirebaseSync.migrateLocalNotes c now transportUp l r =
      .ok res) :
    migrateEntries c now transportUp r l = .ok res.1 ∧
    res.2 = setEntry l "_migrated_to_firebase" (.flag true) := by
  simp only [FirebaseSync.migrateLocalNotes] at h
  cases hm : migrateEntries c now transportUp r l with
  | ok remote' =>
    rw [hm] at h
    rw [Except.ok.injEq] at h
    subst h
    exact ⟨rfl, rfl⟩
  | error e =>
    rw [hm] at h
    exact absurd h (by simp)

/-- C9: the legacy migration sweep leaves every pre-existing local
cache entry unchanged — it never deletes or rewrites the legacy
`notes:*` entries it migrates — and its only local-store mutation is
setting `_migrated_to_firebase` to `true`. -/
theorem migrateLocalNotes_local_frame (c : FirebaseSync) (now : Nat)
    (transportUp : Bool) (l : LocalStore) (r : RemoteStore)
    (res : RemoteStore × LocalStore)
    (h : FirebaseSync.migrateLocalNotes c now transportUp l r =
      .ok res) :
    res.2 = setEntry l "_migrated_to_firebase" (.flag true) ∧
    (∀ k, k ≠ "_migrated_to_firebase" →
      lookupEntry res.2 k = lookupEntry l k) ∧
    lookupEntry res.2 "_migrated_to_firebase" =
      some (.flag true) := by
  obtain ⟨-, hl⟩ := migrateLocalNotes_ok_inv c now transportUp l r
    res h
  refine ⟨hl, ?_, ?_⟩
  · intro k hk
    rw [hl]
    exact lookupEntry_setEntry_ne l "_migrated_to_firebase" k
      (.flag true) hk
  · rw [hl]
    exact lookupEntry_setEntry_self l "_migrated_to_firebase"
      (.flag true)

/-- Witness for C9: migrating a store holding one legacy entry and one
junk entry leaves both readable unchanged and sets only the flag. -/
theorem migrateLocalNotes_local_frame_witness :
    (FirebaseSync.migrateLocalNotes ⟨"u1", []⟩ 9 true
        [("notes:browser", .notes [⟨"1", "hi", 0, 0, []⟩]),
         ("junk", .str "x")] [] =
      .ok ([("users/u1/notes/browser",
             { notes := some [⟨"1", "hi", 0, 0, []⟩], updatedAt := 9 })],
           setEntry [("notes:browser", .notes [⟨"1", "hi", 0, 0, []⟩]),
             ("junk", .str "x")] "_migrated_to_firebase"
             (.flag true))) ∧
    lookupEntry (([("users/u1/notes/browser",
          ({ notes := some [⟨"1", "hi", 0, 0, []⟩],
             updatedAt := 9 } : RemoteDoc))],
        setEntry [("notes:browser", .notes [⟨"1", "hi", 0, 0, []⟩]),
          ("junk", .str "x")] "_migrated_to_firebase" (.flag true)) :
        RemoteStore × LocalStore).2 "notes:browser" =
      lookupEntry [("notes:browser",
        LocalValue.notes [⟨"1", "hi", 0, 0, []⟩]), ("junk", .str "x")]
        "notes:browser" ∧
    lookupEntry (([("users/u1/notes/browser",
          ({ notes := some [⟨"1", "hi", 0, 0, []⟩],
             updatedAt := 9 } : RemoteDoc))],
        setEntry [("notes:browser", .notes [⟨"1", "hi", 0, 0, []⟩]),
          ("junk", .str "x")] "_migrated_to_firebase" (.flag true)) :
        RemoteStore × LocalStore).2 "_migrated_to_firebase" =
      some (.flag true) := by
  have h : FirebaseSync.migrateLocalNotes ⟨"u1", []⟩ 9 true
      [("notes:browser", .notes [⟨"1", "hi", 0, 0, []⟩]),
       ("junk", .str "x")] [] =
      .ok ([("users/u1/notes/browser",
             { notes := some [⟨"1", "hi", 0, 0, []⟩], updatedAt := 9 })],
           setEntry [("notes:browser", .notes [⟨"1", "hi", 0, 0, []⟩]),
             ("junk", .str "x")] "_migrated_to_firebase"
             (.flag true)) := by rfl
  have hfr := migrateLocalNotes_local_frame ⟨"u1", []⟩ 9 true
    [("notes:browser", .notes [⟨"1", "hi", 0, 0, []⟩]),
     ("junk", .str "x")] [] _ h
  exact ⟨h, hfr.2.1 "notes:browser" (by decide), hfr.2.2⟩

/-- C5: the legacy migration sweep rewrites each local entry whose key
matches the old convention and whose value is an array into the
corresponding remote-dialect document; entries not matching the
recognized key shapes are skipped without erroring; after a successful
sweep the persisted `_migrated_to_firebase` flag is set (regardless of
how many entries were migrated, including zero); and a second gated
invocation (`initializeSync`) performs no additional remote writes —
it returns with both stores unchanged. -/
theorem migration_sweep_behavior (c : FirebaseSync) (now : Nat)
    (transportUp : Bool) (r : RemoteStore) (l : LocalStore) :
    (∀ (k : String) (ns : List Note) (rest : List (String × LocalValue))
        (ck : String), migrateKey k = some ck →
      migrateEntries c now true r ((k, .notes ns) :: rest) =
        migrateEntries c now true
          (setEntry r (c.docPath ck)
            { notes := some ns, updatedAt := now }) rest) ∧
    (∀ (k : String) (v : LocalValue)
        (rest : List (String × LocalValue)),
      (∀ ns, v = LocalValue.notes ns → migrateKey k = none) →
      migrateEntries c now transportUp r ((k, v) :: rest) =
        migrateEntries c now transportUp r rest) ∧
    (∀ res, FirebaseSync.migrateLocalNotes c now transportUp l r =
        .ok res →
      lookupEntry res.2 "_migrated_to_firebase" =
        some (.flag true)) ∧
    (∀ (uid : String) (st st' : SysState) (now' : Nat) (tu' : Bool),
      initializeSync (some uid) now transportUp st = .ok st' →
      initializeSync (some uid) now' tu' st' =
        .ok { st' with client := some ⟨uid, []⟩ }) := by
  refine ⟨?_, ?_, ?_, ?_⟩
  · intro k ns rest ck hk
    simp [migrateEntries, hk]
  · intro k v rest hv
    cases v with
    | notes ns => simp [migrateEntries, hv ns rfl]
    | flag b => simp [migrateEntries]
    | str s => simp [migrateEntries]
  · intro res h
    obtain ⟨-, hl⟩ := migrateLocalNotes_ok_inv c now transportUp l r
      res h
    rw [hl]
    exact lookupEntry_setEntry_self l "_migrated_to_firebase"
      (.flag true)
  · intro uid st st' now' tu' hinit
    simp only [initializeSync] at hinit ⊢
    by_cases hf : migrationFlagSet st.localStore = true
    · rw [if_pos hf] at hinit
      rw [Except.ok.injEq] at hinit
      subst hinit
      rw [if_pos (show migrationFlagSet
        ({ st with client := some ⟨uid, []⟩ } : SysState).localStore =
          true from hf)]
    · rw [if_neg hf] at hinit
      cases hm : FirebaseSync.migrateLocalNotes ⟨uid, []⟩ now
          transportUp st.localStore st.remoteStore with
      | error e =>
        rw [hm] at hinit
        exact absurd hinit (by simp)
      | ok pr =>
        obtain ⟨remote', local'⟩ := pr
        rw [hm] at hinit
        rw [Except.ok.injEq] at hinit
        subst hinit
        have hfl : migrationFlagSet local' = true := by
          obtain ⟨-, hl⟩ := migrateLocalNotes_ok_inv ⟨uid, []⟩ now
            transportUp st.localStore st.remoteStore
            (remote', local') hm
          simp only at hl
          rw [migrationFlagSet, hl, lookupEntry_setEntry_self]
          rfl
        rw [if_pos (show migrationFlagSet
          ({ client := some ⟨uid, []⟩, localStore := local',
             remoteStore := remote' } : SysState).localStore = true
          from hfl)]

/-- Witness for C5: the spec scenario.  Legacy key
`notes:domain:example.com` holding `[NoteB]` with the migration flag
unset: the gated initialization writes the remote document
`domain_example.com` containing `[NoteB]`, sets the flag, skips a junk
entry, and a second invocation performs no additional writes. -/
theorem migration_sweep_behavior_witness :
    migrateKey "notes:domain:example.com" = some "domain_example.com" ∧
    (migrateEntries ⟨"u1", []⟩ 9 true []
        [("notes:domain:example.com",
          .notes [⟨"b", "note b", 1, 2, []⟩])] =
      migrateEntries ⟨"u1", []⟩ 9 true
        (setEntry [] (FirebaseSync.docPath ⟨"u1", []⟩
            "domain_example.com")
          { notes := some [⟨"b", "note b", 1, 2, []⟩],
            updatedAt := 9 }) []) ∧
    (migrateEntries ⟨"u1", []⟩ 9 true []
        [("some-other-key", .str "value")] =
      migrateEntries ⟨"u1", []⟩ 9 true [] []) ∧
    (initializeSync (some "u1") 9 true
        ⟨none, [("notes:domain:example.com",
          .notes [⟨"b", "note b", 1, 2, []⟩])], []⟩ =
      .ok ⟨some ⟨"u1", []⟩,
           [("notes:domain:example.com",
             .notes [⟨"b", "note b", 1, 2, []⟩]),
            ("_migrated_to_firebase", .flag true)],
           [("users/u1/notes/domain_example.com",
             { notes := some [⟨"b", "note b", 1, 2, []⟩],
               updatedAt := 9 })]⟩) ∧
    lookupEntry
        [("users/u1/notes/domain_example.com",
          ({ notes := some [⟨"b", "note b", 1, 2, []⟩],
             updatedAt := 9 } : RemoteDoc))]
        "users/u1/notes/domain_example.com" =
      some { notes := some [⟨"b", "note b", 1, 2, []⟩],
             updatedAt := 9 } ∧
    lookupEntry
        (([("users/u1/notes/domain_example.com",
            ({ notes := some [⟨"b", "note b", 1, 2, []⟩],
               updatedAt := 9 } : RemoteDoc))],
          [("notes:domain:example.com",
            LocalValue.notes [⟨"b", "note b", 1, 2, []⟩]),
           ("_migrated_to_firebase", LocalValue.flag true)]) :
          RemoteStore × LocalStore).2 "_migrated_to_firebase" =
      some (.flag true) ∧
    (initializeSync (some "u1") 10 false
        ⟨some ⟨"u1", []⟩,
         [("notes:domain:example.com",
           .notes [⟨"b", "note b", 1, 2, []⟩]),
          ("_migrated_to_firebase", .flag true)],
         [("users/u1/notes/domain_example.com",
           { notes := some [⟨"b", "note b", 1, 2, []⟩],
             updatedAt := 9 })]⟩ =
      .ok ⟨some ⟨"u1", []⟩,
           [("notes:domain:example.com",
             .notes [⟨"b", "note b", 1, 2, []⟩]),
            ("_migrated_to_firebase", .flag true)],
           [("users/u1/notes/domain_example.com",
             { notes := some [⟨"b", "note b", 1, 2, []⟩],
               updatedAt := 9 })]⟩) := by
  have hb := migration_sweep_behavior ⟨"u1", []⟩ 9 true []
    [("notes:domain:example.com", .notes [⟨"b", "note b", 1, 2, []⟩])]
  refine ⟨by rfl, ?_, ?_, by rfl, by rfl, ?_, ?_⟩
  · exact hb.1 "notes:domain:example.com" [⟨"b", "note b", 1, 2, []⟩]
      [] "domain_example.com" (by rfl)
  · exact hb.2.1 "some-other-key" (.str "value") []
      (fun ns hns => by cases hns)
  · exact hb.2.2.1
      ([("users/u1/notes/domain_example.com",
         { notes := some [⟨"b", "note b", 1, 2, []⟩], updatedAt := 9 })],
       [("notes:domain:example.com",
         LocalValue.notes [⟨"b", "note b", 1, 2, []⟩]),
        ("_migrated_to_firebase", LocalValue.flag true)])
      (by rfl)
  · have := hb.2.2.2 "u1"
      ⟨none, [("notes:domain:example.com",
        .notes [⟨"b", "note b", 1, 2, []⟩])], []⟩
      ⟨some ⟨"u1", []⟩,
       [("notes:domain:example.com",
         .notes [⟨"b", "note b", 1, 2, []⟩]),
        ("_migrated_to_firebase", .flag true)],
       [("users/u1/notes/domain_example.com",
         { notes := some [⟨"b", "note b", 1, 2, []⟩],
           updatedAt := 9 })]⟩
      10 false (by rfl)
    exact this

/-- C3 (counterexample to the claim as stated): an execution in which
the orchestrator's `saveNotes` does raise on a failed remote write and
does not write the notes to the local cache.  With an authenticated
user, the migration flag unset, one pending legacy entry and the
transport down, the unguarded `await initializeSync()` inside
`saveNotes` runs the one-time migration, whose remote write fails; the
error propagates to the caller before the local write. -/
theorem saveNotes_raises_on_migration_failure :
    SidebarLogic.saveNotes (some "u1") 0 false "browser"
      ⟨"https://a.b/", "a.b", "a.b", "/", "/"⟩ [⟨"1", "hi", 0, 0, []⟩]
      ⟨none, [("notes:browser", .notes [⟨"0", "old", 0, 0, []⟩])], []⟩ =
      .error .transportError := by rfl

/-- C3 (amended): provided the lazy-initialization step does not
itself fail (in particular whenever the client is already initialized,
or the migration flag is set, or no legacy entry forces a migration
write), the orchestrator's `saveNotes` never raises — for remote
success, remote failure and no-client alike — and always writes
exactly the given notes to the local cache store under
`getStorageKey(scope, context)`. -/
theorem saveNotes_writeback (auth : Option String) (now : Nat)
    (transportUp : Bool) (scope : String) (context : UrlContext)
    (notes : List Note) (st st₁ : SysState)
    (hinit : ensureSync auth now transportUp st = .ok st₁) :
    ∃ st₂, SidebarLogic.saveNotes auth now transportUp scope context
        notes st = .ok st₂ ∧
      lookupEntry st₂.localStore (getStorageKey scope context) =
        some (.notes notes) := by
  cases hc : st₁.client with
  | none =>
    refine ⟨{ st₁ with localStore := (setEntry st₁.localStore (getStorageKey scope context) (.notes notes)) }, ?_, ?_⟩
    · simp [SidebarLogic.saveNotes, hinit, hc]
    · exact lookupEntry_setEntry_self st₁.localStore
        (getStorageKey scope context) (.notes notes)
  | some c =>
    cases hs : FirebaseSync.saveNotes c st₁.remoteStore now transportUp
        scope context notes with
    | ok pr =>
      obtain ⟨c', r'⟩ := pr
      refine ⟨{ client := some c', remoteStore := r', localStore := (setEntry st₁.localStore (getStorageKey scope context) (.notes notes)) }, ?_, ?_⟩
      · simp [SidebarLogic.saveNotes, hinit, hc, hs]
      · exact lookupEntry_setEntry_self st₁.localStore
          (getStorageKey scope context) (.notes notes)
    | error e =>
      refine ⟨{ st₁ with localStore := (setEntry st₁.localStore (getStorageKey scope context) (.notes notes)) }, ?_, ?_⟩
      · simp [SidebarLogic.saveNotes, hinit, hc, hs]
      · exact lookupEntry_setEntry_self st₁.localStore
          (getStorageKey scope context) (.notes notes)

/-- Witness for the amended C3: with an initialized client and the
transport down, the remote write fails, yet `saveNotes` succeeds and
the local cache holds exactly the given notes. -/
theorem saveNotes_writeback_witness :
    (ensureSync (some "u1") 3 false ⟨some ⟨"u1", []⟩, [], []⟩ =
      .ok ⟨some ⟨"u1", []⟩, [], []⟩) ∧
    ∃ st₂, SidebarLogic.saveNotes (some "u1") 3 false "browser"
        ⟨"https://a.b/", "a.b", "a.b", "/", "/"⟩ [⟨"1", "hi", 0, 0, []⟩]
        ⟨some ⟨"u1", []⟩, [], []⟩ = .ok st₂ ∧
      lookupEntry st₂.localStore (getStorageKey "browser"
        ⟨"https://a.b/", "a.b", "a.b", "/", "/"⟩) =
        some (.notes [⟨"1", "hi", 0, 0, []⟩]) :=
  ⟨rfl, saveNotes_writeback (some "u1") 3 false "browser"
    ⟨"https://a.b/", "a.b", "a.b", "/", "/"⟩ [⟨"1", "hi", 0, 0, []⟩]
    ⟨some ⟨"u1", []⟩, [], []⟩ ⟨some ⟨"u1", []⟩, [], []⟩ rfl⟩

/-- C4: the orchestrator's `loadNotes` (whenever its lazy
initialization step returns) behaves as read-through with cache
fallback: with a client and a successful remote read it refreshes the
local cache with the remote result and returns it; with a client and a
failed remote read it returns the local cache's current value for the
key, propagating no error; without a client it reads the cache
directly. -/
theorem loadNotes_read_through (auth : Option String) (now : Nat)
    (transportUp : Bool) (scope : String) (context : UrlContext)
    (st st₁ : SysState)
    (hinit : ensureSync auth now transportUp st = .ok st₁) :
    (∀ c ns, st₁.client = some c →
      FirebaseSync.loadNotes c st₁.remoteStore transportUp scope
        context = .ok ns →
      SidebarLogic.loadNotes auth now transportUp scope context st =
        .ok (ns, { st₁ with localStore := (setEntry st₁.localStore (getStorageKey scope context) (.notes ns)) })) ∧
    (∀ c e, st₁.client = some c →
      FirebaseSync.loadNotes c st₁.remoteStore transportUp scope
        context = .error e →
      SidebarLogic.loadNotes auth now transportUp scope context st =
        .ok (localNotes st₁.localStore (getStorageKey scope context),
          st₁)) ∧
    (st₁.client = none →
      SidebarLogic.loadNotes auth now transportUp scope context st =
        .ok (localNotes st₁.localStore (getStorageKey scope context),
          st₁)) := by
  refine ⟨?_, ?_, ?_⟩
  · intro c ns hc hl
    simp [SidebarLogic.loadNotes, hinit, hc, hl]
  · intro c e hc hl
    simp [SidebarLogic.loadNotes, hinit, hc, hl]
  · intro hc
    simp [SidebarLogic.loadNotes, hinit, hc]

/-- Witness for C4: the spec scenario.  The local cache holds
`[NoteA]` under `notes:page:example.com/test`, the remote read fails
(transport down), and `loadNotes('page', ctx)` returns `[NoteA]`. -/
theorem loadNotes_read_through_witness :
    (ensureSync (some "u1") 4 false
        ⟨some ⟨"u1", []⟩,
         [("notes:page:example.com/test",
           .notes [⟨"a", "note a", 1, 1, []⟩])], []⟩ =
      .ok ⟨some ⟨"u1", []⟩,
           [("notes:page:example.com/test",
             .notes [⟨"a", "note a", 1, 1, []⟩])], []⟩) ∧
    (FirebaseSync.loadNotes ⟨"u1", []⟩ [] false "page"
        ⟨"https://example.com/test", "example.com", "example.com",
         "/test", "/test"⟩ = .error .transportError) ∧
    (SidebarLogic.loadNotes (some "u1") 4 false "page"
        ⟨"https://example.com/test", "example.com", "example.com",
         "/test", "/test"⟩
        ⟨some ⟨"u1", []⟩,
         [("notes:page:example.com/test",
           .notes [⟨"a", "note a", 1, 1, []⟩])], []⟩ =
      .ok (localNotes
        [("notes:page:example.com/test",
          LocalValue.notes [⟨"a", "note a", 1, 1, []⟩])]
        (getStorageKey "page"
          ⟨"https://example.com/test", "example.com", "example.com",
           "/test", "/test"⟩),
        ⟨some ⟨"u1", []⟩,
         [("notes:page:example.com/test",
           .notes [⟨"a", "note a", 1, 1, []⟩])], []⟩)) ∧
    localNotes
        [("notes:page:example.com/test",
          LocalValue.notes [⟨"a", "note a", 1, 1, []⟩])]
        (getStorageKey "page"
          ⟨"https://example.com/test", "example.com", "example.com",
           "/test", "/test"⟩) = [⟨"a", "note a", 1, 1, []⟩] := by
  refine ⟨rfl, rfl, ?_, rfl⟩
  exact (loadNotes_read_through (some "u1") 4 false "page"
    ⟨"https://example.com/test", "example.com", "example.com",
     "/test", "/test"⟩
    ⟨some ⟨"u1", []⟩,
     [("notes:page:example.com/test",
       .notes [⟨"a", "note a", 1, 1, []⟩])], []⟩
    ⟨some ⟨"u1", []⟩,
     [("notes:page:example.com/test",
       .notes [⟨"a", "note a", 1, 1, []⟩])], []⟩ rfl).2.1
    ⟨"u1", []⟩ .transportError rfl rfl

/-- C6: for every input string, `parseUrlContext` returns `null`
exactly when the host URL parser rejects the input (the string is not
a parseable absolute URL); as a pure function it is deterministic
(equal outputs for equal inputs); and every returned context has its
`domain` a suffix of its `subdomain` (the last two labels of the
hostname, or the whole hostname when it has fewer than two labels). -/
theorem parseUrlContext_spec (tryParseURL : String → Option URLParts)
    (url : String) :
    (parseUrlContext tryParseURL url = none ↔ tryParseURL url = none) ∧
    (∀ url', url = url' →
      parseUrlContext tryParseURL url =
        parseUrlContext tryParseURL url') ∧
    (∀ ctx, parseUrlContext tryParseURL url = some ctx →
      ∃ p, ctx.subdomain = p ++ ctx.domain) := by
  refine ⟨?_, ?_, ?_⟩
  · cases h : tryParseURL url with
    | none => simp [parseUrlContext, h]
    | some u => simp [parseUrlContext, h]
  · intro url' h
    subst h
    rfl
  · intro ctx hctx
    cases h : tryParseURL url with
    | none => simp [parseUrlContext, h] at hctx
    | some u =>
      simp only [parseUrlContext, h] at hctx
      rw [Option.some.injEq] at hctx
      subst hctx
      show ∃ p, u.hostname = p ++ _
      by_cases hlen2 : 2 ≤ (splitChar '.' u.hostname.toList).length
      · rw [if_pos hlen2]
        obtain ⟨p, hp⟩ := joinChar_drop_isSuffix '.'
          (splitChar '.' u.hostname.toList)
          ((splitChar '.' u.hostname.toList).length - 2)
        refine ⟨String.mk p, ?_⟩
        have hjoin : joinChar '.' (splitChar '.' u.hostname.toList) =
            u.hostname.toList :=
          joinChar_splitChar '.' u.hostname.toList
        exact congrArg String.mk (hjoin.symm.trans hp)
      · rw [if_neg hlen2]
        exact ⟨String.mk [], rfl⟩

/-- Witness for C6: the URL
`https://app.example.com/dashboard?id=123` parses to the context with
domain `example.com` and subdomain `app.example.com`, and the domain
is a suffix of the subdomain. -/
theorem parseUrlContext_spec_witness :
    (parseUrlContext
        (fun _ => some ⟨"app.example.com", "/dashboard", "?id=123", ""⟩)
        "https://app.example.com/dashboard?id=123" =
      some ⟨"https://app.example.com/dashboard?id=123", "example.com",
            "app.example.com", "/dashboard", "/dashboard?id=123"⟩) ∧
    ∃ p, (⟨"https://app.example.com/dashboard?id=123", "example.com",
          "app.example.com", "/dashboard",
          "/dashboard?id=123"⟩ : UrlContext).subdomain =
      p ++ (⟨"https://app.example.com/dashboard?id=123", "example.com",
            "app.example.com", "/dashboard",
            "/dashboard?id=123"⟩ : UrlContext).domain := by
  refine ⟨by decide, ?_⟩
  exact (parseUrlContext_spec
    (fun _ => some ⟨"app.example.com", "/dashboard", "?id=123", ""⟩)
    "https://app.example.com/dashboard?id=123").2.2
    ⟨"https://app.example.com/dashboard?id=123", "example.com",
     "app.example.com", "/dashboard", "/dashboard?id=123"⟩
    (by decide)

/-- C7: the two key derivers are pure functions producing exactly the
specified dialect strings — local dialect `notes:browser`,
`notes:domain:<domain>`, `notes:subdomain:<subdomain>`,
`notes:page:<subdomain><path>`; remote dialect `browser`,
`domain_<domain>`, `subdomain_<subdomain>`,
`page_<subdomain><escapedPath>` with every `/` of the path replaced by
`~` — and any unrecognized scope value falls back to the browser key
in both dialects. -/
theorem key_derivers_dialects (context : UrlContext) :
    getStorageKey "browser" context = "notes:browser" ∧
    getStorageKey "domain" context = "notes:domain:" ++ context.domain ∧
    getStorageKey "subdomain" context =
      "notes:subdomain:" ++ context.subdomain ∧
    getStorageKey "page" context =
      "notes:page:" ++ context.subdomain ++ context.path ∧
    FirebaseSync.buildFirestoreKey "browser" context = "browser" ∧
    FirebaseSync.buildFirestoreKey "domain" context =
      "domain_" ++ context.domain ∧
    FirebaseSync.buildFirestoreKey "subdomain" context =
      "subdomain_" ++ context.subdomain ∧
    FirebaseSync.buildFirestoreKey "page" context =
      "page_" ++ context.subdomain ++
        String.mk (context.path.toList.map
          fun ch => if ch = '/' then '~' else ch) ∧
    (∀ scope : String,
      scope ∉ (["browser", "domain", "subdomain", "page"] :
        List String) →
      getStorageKey scope context = "notes:browser" ∧
      FirebaseSync.buildFirestoreKey scope context = "browser") := by
  refine ⟨rfl, rfl, rfl, rfl, rfl, rfl, rfl, rfl, ?_⟩
  intro scope hmem
  simp only [List.mem_cons, List.not_mem_nil, or_false, not_or] at hmem
  obtain ⟨h1, h2, h3, h4⟩ := hmem
  constructor
  · unfold getStorageKey
    split <;> simp_all
  · unfold FirebaseSync.buildFirestoreKey
    split <;> simp_all

/-- Witness for C7: the dialect equations at a concrete context, and
the fallback at the unrecognized scope value `bogus`. -/
theorem key_derivers_dialects_witness :
    getStorageKey "page"
      ⟨"https://app.example.com/a/b", "example.com", "app.example.com",
       "/a/b", "/a/b"⟩ = "notes:page:app.example.com/a/b" ∧
    FirebaseSync.buildFirestoreKey "page"
      ⟨"https://app.example.com/a/b", "example.com", "app.example.com",
       "/a/b", "/a/b"⟩ = "page_app.example.com~a~b" ∧
    getStorageKey "bogus"
      ⟨"https://app.example.com/a/b", "example.com", "app.example.com",
       "/a/b", "/a/b"⟩ = "notes:browser" ∧
    FirebaseSync.buildFirestoreKey "bogus"
      ⟨"https://app.example.com/a/b", "example.com", "app.example.com",
       "/a/b", "/a/b"⟩ = "browser" := by
  have h := key_derivers_dialects
    ⟨"https://app.example.com/a/b", "example.com", "app.example.com",
     "/a/b", "/a/b"⟩
  have hf := h.2.2.2.2.2.2.2.2 "bogus" (by decide)
  exact ⟨by decide, by decide, hf.1, hf.2⟩

end Marginalia
